import Mathlib

/-!
Shallow embedding of `control/nltools.py` (describing-function analysis of
static nonlinearities) and verification of its specification.

Real-valued quantities of the Python code are modelled over `ℝ`; the purely
arithmetic segment-intersection routine is modelled over `ℚ` so that it can be
evaluated on concrete inputs.  A Python complex return value is modelled by the
`DF` type below (`DF.nan` models the `np.nan` sentinel, `DF.val re im` a
complex number); a raised `ValueError` is modelled by `Except.error`.
-/

open Real

/-- Result of a describing-function computation: either the not-a-number
sentinel (`np.nan` in the source) or a complex value given by real and
imaginary parts. -/
inductive DF where
  | nan : DF
  | val : ℝ → ℝ → DF

/-- Embedding of `NonlinearFunction._f` from the source:
`math.copysign(1, x) if abs(x) > 1 else (math.asin(x) + x*math.sqrt(1-x**2))*2/math.pi`. -/
noncomputable def nlf_f (x : ℝ) : ℝ :=
  if 1 < |x| then (if x < 0 then -1 else 1)
  else (Real.arcsin x + x * Real.sqrt (1 - x ^ 2)) * 2 / Real.pi

/-- Embedding of `saturation_nonlinearity.__init__`: takes `ub` and optional `lb`
(`lb = none` models the Python default `lb=None`).  Returns the stored
`(lb, ub)` pair together with a flag recording whether the
"asymmetric saturation" warning was emitted.  The constructor never raises. -/
noncomputable def saturation_init (ub : ℝ) (lb : Option ℝ) : ℝ × ℝ × Bool :=
  let p : ℝ × ℝ :=
    match lb with
    | none => (-|ub|, |ub|)
    | some l => (l, ub)
  (p.1, p.2, if 0 < p.1 ∨ p.2 < 0 ∨ p.1 + p.2 ≠ 0 then true else false)

/-- Embedding of `saturation_nonlinearity.describing_function` for stored bounds
`(lb, ub)`. -/
noncomputable def saturation_df (lb ub A : ℝ) : DF :=
  if lb ≤ A ∧ A ≤ ub then DF.val 1 0
  else
    let alpha := Real.arcsin (ub / A)
    let beta := Real.arcsin (-lb / A)
    DF.val ((Real.sin (alpha + beta) * Real.cos (alpha - beta) + (alpha + beta))
      / Real.pi) 0

/-- Embedding of `relay_hysteresis_nonlinearity.describing_function` (the local helper `f`
defined inside it in the source is dead code and is omitted). -/
noncomputable def relay_df (b c a : ℝ) : DF :=
  if a < c then DF.nan
  else DF.val (4 * b * Real.sqrt (1 - (c / a) ^ 2) / (a * Real.pi))
    (-(4 * b * c) / (Real.pi * a ^ 2))

/-- Embedding of `backlash_nonlinearity.describing_function` (the Python `return 0` is the
real number `0`, i.e. zero real and imaginary parts). -/
noncomputable def backlash_df (b A : ℝ) : DF :=
  if A ≤ b / 2 then DF.val 0 0
  else DF.val ((1 + nlf_f (1 - b / A)) / 2)
    (-(2 * b / A - (b / A) ^ 2) / Real.pi)

/-- C3 counterexample: constructing a saturation with bounds `lb = -1`,
`ub = 2` warns but stores the bounds exactly as supplied; the stored bounds
are not symmetric about zero (`lb + ub ≠ 0`), so the bias term is not
actually dropped. -/
theorem saturation_init_asym_counterexample :
    saturation_init 2 (some (-1)) = (-1, 2, true) ∧ (-1 : ℝ) + 2 ≠ 0 := by
  constructor
  · simp only [saturation_init]
    norm_num
  · norm_num

/-- C3 (amended): constructing a saturation nonlinearity with asymmetric
bounds never fails: the warning flag is set, and the bounds are stored
exactly as supplied (no symmetrization is performed). -/
theorem saturation_init_asym (ub lb : ℝ)
    (h : 0 < lb ∨ ub < 0 ∨ lb + ub ≠ 0) :
    saturation_init ub (some lb) = (lb, ub, true) := by
  simp only [saturation_init, if_pos h]

/-- Witness for `saturation_init_asym` at `ub = 2`, `lb = -1`. -/
theorem saturation_init_asym_witness :
    saturation_init 2 (some (-1)) = (-1, 2, true) :=
  saturation_init_asym 2 (-1) (Or.inr (Or.inr (by norm_num)))

/-- C4: for a relay with hysteresis with `b > 0`, `c > 0`, the closed-form
describing function is the NaN sentinel for every amplitude `a < c`, and for
`a ≥ c` it is the complex number with real part `4·b·sqrt(1-(c/a)^2)/(a·π)`
and imaginary part `-4·b·c/(π·a^2)`, which is strictly negative. -/
theorem relay_df_spec (b c a : ℝ) (hb : 0 < b) (hc : 0 < c) :
    (a < c → relay_df b c a = DF.nan) ∧
    (c ≤ a → relay_df b c a =
        DF.val (4 * b * Real.sqrt (1 - (c / a) ^ 2) / (a * Real.pi))
          (-(4 * b * c) / (Real.pi * a ^ 2)) ∧
      -(4 * b * c) / (Real.pi * a ^ 2) < 0) := by
  constructor
  · intro h
    simp only [relay_df, if_pos h]
  · intro h
    have ha : 0 < a := lt_of_lt_of_le hc h
    refine ⟨by simp only [relay_df, if_neg (not_lt.mpr h)], ?_⟩
    rw [neg_div, neg_lt_zero]
    positivity

/-- Witness for `relay_df_spec` at `b = 1`, `c = 1/2`, amplitudes `3/10`
(below the switching level) and `1` (above it). -/
theorem relay_df_spec_witness :
    relay_df 1 (1 / 2) (3 / 10) = DF.nan ∧
    (relay_df 1 (1 / 2) 1 =
        DF.val (4 * 1 * Real.sqrt (1 - (1 / 2 / 1) ^ 2) / (1 * Real.pi))
          (-(4 * 1 * (1 / 2)) / (Real.pi * 1 ^ 2)) ∧
      -(4 * 1 * (1 / 2)) / (Real.pi * 1 ^ 2) < 0) :=
  ⟨(relay_df_spec 1 (1 / 2) (3 / 10) (by norm_num) (by norm_num)).1 (by norm_num),
   (relay_df_spec 1 (1 / 2) 1 (by norm_num) (by norm_num)).2 (by norm_num)⟩

/-- C5: for a backlash nonlinearity with `b > 0`, the closed-form describing
function is exactly `0` for every amplitude `A ≤ b/2`, and for `A > b/2` it
is the complex number with real part `(1 + f(1 - b/A))/2` and imaginary part
`-(2·b/A - (b/A)^2)/π`, where `f z = sign z` for `|z| > 1` and
`f z = (asin z + z·sqrt(1-z^2))·2/π` otherwise. -/
theorem backlash_df_spec (b A : ℝ) (hb : 0 < b) :
    (A ≤ b / 2 → backlash_df b A = DF.val 0 0) ∧
    (b / 2 < A → backlash_df b A =
      DF.val ((1 + nlf_f (1 - b / A)) / 2)
        (-(2 * b / A - (b / A) ^ 2) / Real.pi)) ∧
    (∀ z : ℝ, (1 < |z| → nlf_f z = if z < 0 then -1 else 1) ∧
      (|z| ≤ 1 → nlf_f z =
        (Real.arcsin z + z * Real.sqrt (1 - z ^ 2)) * 2 / Real.pi)) := by
  refine ⟨fun h => by simp only [backlash_df, if_pos h],
    fun h => by simp only [backlash_df, if_neg (not_le.mpr h)], fun z => ⟨?_, ?_⟩⟩
  · intro hz
    simp only [nlf_f, if_pos hz]
  · intro hz
    simp only [nlf_f, if_neg (not_lt.mpr hz)]

/-- Witness for `backlash_df_spec` at `b = 2`, amplitudes `1/2` (inside the
dead band) and `2` (outside), and the auxiliary function at `z = 2` and
`z = 1/2`. -/
theorem backlash_df_spec_witness :
    backlash_df 2 (1 / 2) = DF.val 0 0 ∧
    backlash_df 2 2 = DF.val ((1 + nlf_f (1 - 2 / 2)) / 2)
      (-(2 * 2 / 2 - (2 / 2) ^ 2) / Real.pi) ∧
    nlf_f 2 = 1 ∧
    nlf_f (1 / 2) =
      (Real.arcsin (1 / 2) + 1 / 2 * Real.sqrt (1 - (1 / 2 : ℝ) ^ 2)) * 2 / Real.pi := by
  have h := backlash_df_spec 2 (1 / 2) (by norm_num)
  have h2 := backlash_df_spec 2 2 (by norm_num)
  refine ⟨h.1 (by norm_num), h2.2.1 (by norm_num), ?_, ?_⟩
  · rw [(h.2.2 2).1 (by norm_num)]
    norm_num
  · exact (h.2.2 (1 / 2)).2 (by rw [abs_of_nonneg]; norm_num; norm_num)

/-- C6: for a symmetric saturation nonlinearity with bound `ub > 0` (stored
bounds `lb = -ub`, `ub`), the describing function is exactly `1` for every
amplitude `0 ≤ A ≤ ub`, and for every `A > ub` it is real-valued (zero
imaginary part). -/
theorem saturation_df_spec (ub A : ℝ) (hub : 0 < ub) :
    (0 ≤ A → A ≤ ub → saturation_df (-ub) ub A = DF.val 1 0) ∧
    (ub < A → ∃ r, saturation_df (-ub) ub A = DF.val r 0) := by
  constructor
  · intro h0 h1
    have : -ub ≤ A := le_trans (by linarith) h0
    simp only [saturation_df, if_pos (And.intro this h1)]
  · intro h
    refine ⟨(Real.sin (Real.arcsin (ub / A) + Real.arcsin (-(-ub) / A)) *
        Real.cos (Real.arcsin (ub / A) - Real.arcsin (-(-ub) / A)) +
        (Real.arcsin (ub / A) + Real.arcsin (-(-ub) / A))) / Real.pi, ?_⟩
    have hn : ¬(-ub ≤ A ∧ A ≤ ub) := fun hc => absurd hc.2 (not_le.mpr h)
    simp only [saturation_df, if_neg hn]

/-- Witness for `saturation_df_spec` at `ub = 1`, amplitudes `1/2` (linear
region) and `2` (saturated region). -/
theorem saturation_df_spec_witness :
    saturation_df (-1) 1 (1 / 2) = DF.val 1 0 ∧
    (∃ r, saturation_df (-1) 1 2 = DF.val r 0) :=
  ⟨(saturation_df_spec 1 (1 / 2) (by norm_num)).1 (by norm_num) (by norm_num),
   (saturation_df_spec 1 2 (by norm_num)).2 (by norm_num)⟩

/-!
Segment intersection (`_find_intersection` in the source).  Complex numbers
are represented as pairs `(re, im)` over `ℚ`, which keeps the routine
executable; the source uses only field arithmetic here.
-/

/-- The determinant `L1t.imag * L2t.real - L1t.real * L2t.imag` of the 2x2
system solved by `_find_intersection`, where `L1t`, `L2t` are the segment
tangents. -/
def detM (L1t L2t : ℚ × ℚ) : ℚ := L1t.2 * L2t.1 - L1t.1 * L2t.2

/-- Tangent `q - p` of the segment from `p` to `q`. -/
def segTan (p q : ℚ × ℚ) : ℚ × ℚ := (q.1 - p.1, q.2 - p.2)

/-- Embedding of `_find_intersection(L1a, L1b, L2a, L2b)` from the source: returns the
parametric positions `(s1, s2)` where the two segments cross, or `none` when
the determinant is below the fixed tolerance `1e-8` or either position falls
outside `[0, 1]`. -/
def find_intersection (L1a L1b L2a L2b : ℚ × ℚ) : Option (ℚ × ℚ) :=
  let L1t := segTan L1a L1b
  let L2t := segTan L2a L2b
  let b := (L1a.1 - L2a.1, L1a.2 - L2a.2)
  let d := detM L1t L2t
  let s1 := (L2t.2 * b.1 - L2t.1 * b.2) / d
  let s2 := (L1t.2 * b.1 - L1t.1 * b.2) / d
  if |d| < 1 / 100000000 then none
  else if s1 < 0 ∨ 1 < s1 then none
  else if s2 < 0 ∨ 1 < s2 then none
  else some (s1, s2)

/-- C7: the segment-intersection routine returns `none` when the determinant
has magnitude below the tolerance; and every returned pair `(s1, s2)`
satisfies `s1 ∈ [0,1]`, `s2 ∈ [0,1]`, and the intersection point recomputed
from both parametrizations, `L1a + s1·(L1b - L1a)` and `L2a + s2·(L2b - L2a)`,
coincides exactly (both coordinates). -/
theorem find_intersection_spec (L1a L1b L2a L2b : ℚ × ℚ) :
    (|detM (segTan L1a L1b) (segTan L2a L2b)| < 1 / 100000000 →
      find_intersection L1a L1b L2a L2b = none) ∧
    (∀ s1 s2, find_intersection L1a L1b L2a L2b = some (s1, s2) →
      0 ≤ s1 ∧ s1 ≤ 1 ∧ 0 ≤ s2 ∧ s2 ≤ 1 ∧
      L1a.1 + s1 * (L1b.1 - L1a.1) = L2a.1 + s2 * (L2b.1 - L2a.1) ∧
      L1a.2 + s1 * (L1b.2 - L1a.2) = L2a.2 + s2 * (L2b.2 - L2a.2)) := by
  constructor
  · intro h
    simp only [find_intersection, if_pos h]
  · intro s1 s2 h
    simp only [find_intersection] at h
    by_cases hd : |detM (segTan L1a L1b) (segTan L2a L2b)| < 1 / 100000000
    · rw [if_pos hd] at h
      simp at h
    · rw [if_neg hd] at h
      have hdne : detM (segTan L1a L1b) (segTan L2a L2b) ≠ 0 := by
        intro h0
        rw [h0] at hd
        norm_num at hd
      rcases ite_eq_iff.mp h with ⟨_, hcon⟩ | ⟨hr1, h⟩
      · exact absurd hcon.symm (by simp)
      rcases ite_eq_iff.mp h with ⟨_, hcon⟩ | ⟨hr2, h⟩
      · exact absurd hcon.symm (by simp)
      have hs : s1 = ((segTan L2a L2b).2 * (L1a.1 - L2a.1) -
            (segTan L2a L2b).1 * (L1a.2 - L2a.2)) /
              detM (segTan L1a L1b) (segTan L2a L2b) ∧
          s2 = ((segTan L1a L1b).2 * (L1a.1 - L2a.1) -
            (segTan L1a L1b).1 * (L1a.2 - L2a.2)) /
              detM (segTan L1a L1b) (segTan L2a L2b) := by
        have hp := Option.some.inj h
        exact ⟨(congrArg Prod.fst hp).symm, (congrArg Prod.snd hp).symm⟩
      push_neg at hr1 hr2
      rw [hs.1, hs.2]
      have hdne' : (L1b.2 - L1a.2) * (L2b.1 - L2a.1) -
          (L1b.1 - L1a.1) * (L2b.2 - L2a.2) ≠ 0 := by
        simpa [detM, segTan] using hdne
      refine ⟨hr1.1, hr1.2, hr2.1, hr2.2, ?_, ?_⟩
      · simp only [detM, segTan]
        field_simp
        ring
      · simp only [detM, segTan]
        field_simp
        ring

/-- Witness for `find_intersection_spec`: a horizontal and a vertical segment
crossing at their midpoints. -/
theorem find_intersection_spec_witness :
    find_intersection (0, 0) (1, 0) (1 / 2, -1) (1 / 2, 1) = some (1 / 2, 1 / 2) ∧
    (0 ≤ (1 / 2 : ℚ) ∧ (1 / 2 : ℚ) ≤ 1 ∧ 0 ≤ (1 / 2 : ℚ) ∧ (1 / 2 : ℚ) ≤ 1 ∧
      (0 : ℚ) + 1 / 2 * (1 - 0) = 1 / 2 + 1 / 2 * (1 / 2 - 1 / 2) ∧
      (0 : ℚ) + 1 / 2 * (0 - 0) = -1 + 1 / 2 * (1 - -1)) := by
  have h : find_intersection (0, 0) (1, 0) (1 / 2, -1) (1 / 2, 1) =
      some (1 / 2, 1 / 2) := by
    simp only [find_intersection, segTan, detM]
    norm_num
  exact ⟨h, (find_intersection_spec (0, 0) (1, 0) (1 / 2, -1) (1 / 2, 1)).2
    (1 / 2) (1 / 2) h⟩

/-!
Limit-cycle locator (`describing_function_plot` in the source).  The external
numeric minimizer (`scipy.optimize.minimize` on the closed-loop residual) is
modelled as an oracle returning a success flag and a refined point; plotting
calls are side effects with no bearing on the returned data and are omitted.
-/

/-- Result of the external numeric minimizer: convergence flag and the
minimizing point `(a, omega)`. -/
structure MinResult where
  success : Bool
  x : ℚ × ℚ

/-- The coarse intersection candidates collected by the nested loop of
`describing_function_plot`: for every pair of consecutive-point segments
(one from the `-1/N` curve `N_vals`, one from the plant curve `H_vals`) that
`_find_intersection` reports as crossing, the linearly interpolated
`(amplitude, frequency)` guess. -/
def coarse_intersections (a : List ℚ) (N_vals H_vals : List (ℚ × ℚ))
    (H_omega : List ℚ) : List (ℚ × ℚ) :=
  (List.range (N_vals.length - 1)).flatMap fun i =>
    (List.range (H_vals.length - 1)).flatMap fun j =>
      match find_intersection (N_vals.getD i (0, 0)) (N_vals.getD (i + 1) (0, 0))
          (H_vals.getD j (0, 0)) (H_vals.getD (j + 1) (0, 0)) with
      | none => []
      | some (s_amp, s_omega) =>
        [((1 - s_amp) * a.getD i 0 + s_amp * a.getD (i + 1) 0,
          (1 - s_omega) * H_omega.getD j 0 + s_omega * H_omega.getD (j + 1) 0)]

/-- The per-candidate refinement step of `describing_function_plot`: when
`refine` is set, run the minimizer from the coarse guess; on success take the
minimizer's point, on failure keep the coarse guess and emit the
"not able to refine result" warning (recorded in the boolean flag). -/
def refine_candidate (refine : Bool) (minimize : ℚ × ℚ → MinResult)
    (guess : ℚ × ℚ) : (ℚ × ℚ) × Bool :=
  if refine then
    if (minimize guess).success then ((minimize guess).x, false)
    else (guess, true)
  else (guess, false)

/-- The data computed by `describing_function_plot`: every coarse candidate,
each refined independently; the boolean records whether the non-convergence
warning was emitted for that candidate. -/
def describing_function_plot (refine : Bool) (minimize : ℚ × ℚ → MinResult)
    (a : List ℚ) (N_vals H_vals : List (ℚ × ℚ)) (H_omega : List ℚ) :
    List ((ℚ × ℚ) × Bool) :=
  (coarse_intersections a N_vals H_vals H_omega).map
    (refine_candidate refine minimize)

/-- C8: if the minimizer reports non-convergence on the `k`-th candidate
intersection, the locator keeps the coarse estimate for that candidate and
records the warning, and the output still has one entry per candidate — one
failed refinement never aborts the processing of the remaining
intersections. -/
theorem dfp_refine_fallback (minimize : ℚ × ℚ → MinResult)
    (a H_omega : List ℚ) (N_vals H_vals : List (ℚ × ℚ)) (k : ℕ)
    (hk : k < (coarse_intersections a N_vals H_vals H_omega).length)
    (hfail : (minimize
      ((coarse_intersections a N_vals H_vals H_omega).getD k (0, 0))).success
        = false) :
    (describing_function_plot true minimize a N_vals H_vals H_omega).length =
      (coarse_intersections a N_vals H_vals H_omega).length ∧
    (describing_function_plot true minimize a N_vals H_vals H_omega).getD k
        ((0, 0), false) =
      ((coarse_intersections a N_vals H_vals H_omega).getD k (0, 0), true) := by
  constructor
  · simp [describing_function_plot]
  · rw [List.getD_eq_getElem _ _ hk] at hfail
    have hk' : k <
        (describing_function_plot true minimize a N_vals H_vals H_omega).length := by
      simpa [describing_function_plot] using hk
    rw [List.getD_eq_getElem _ _ hk', List.getD_eq_getElem _ _ hk]
    simp [describing_function_plot, refine_candidate, hfail]

/-- Witness for `dfp_refine_fallback`: a single crossing between a horizontal
and a vertical segment, with a minimizer that always reports failure. -/
theorem dfp_refine_fallback_witness :
    (describing_function_plot true (fun _ => MinResult.mk false (0, 0)) [1, 2]
        [(0, 0), (1, 0)] [(1 / 2, -1), (1 / 2, 1)] [10, 20]).length =
      (coarse_intersections [1, 2] [(0, 0), (1, 0)] [(1 / 2, -1), (1 / 2, 1)]
        [10, 20]).length ∧
    (describing_function_plot true (fun _ => MinResult.mk false (0, 0)) [1, 2]
        [(0, 0), (1, 0)] [(1 / 2, -1), (1 / 2, 1)] [10, 20]).getD 0
        ((0, 0), false) =
      ((coarse_intersections [1, 2] [(0, 0), (1, 0)] [(1 / 2, -1), (1 / 2, 1)]
        [10, 20]).getD 0 (0, 0), true) := by
  have hr : List.range 1 = [0] := rfl
  have hf : find_intersection 0 (1, 0) (1 / 2, -1) (1 / 2, 1) =
      some (1 / 2, 1 / 2) := by
    simp only [find_intersection, segTan, detM]
    norm_num
  have hc : coarse_intersections [1, 2] [(0, 0), (1, 0)] [(1 / 2, -1), (1 / 2, 1)]
      [10, 20] = [(3 / 2, 15)] := by
    simp only [coarse_intersections, List.length_cons, List.length_nil]
    norm_num [hr, List.flatMap_cons, List.flatMap_nil, hf]
  exact dfp_refine_fallback (fun _ => MinResult.mk false (0, 0)) [1, 2] [10, 20]
    [(0, 0), (1, 0)] [(1 / 2, -1), (1 / 2, 1)] 0 (by rw [hc]; norm_num) rfl

/-!
Stateful evaluation of the relay and backlash nonlinearities.  The hidden
mutable attributes (`self.branch`, `self.center`) become explicit state passed
through each call; a sequence of `__call__` invocations becomes a fold over
the list of inputs.
-/

/-- Embedding of `relay_hysteresis_nonlinearity.__call__`: one evaluation at input `x`
from branch state `branch`.  Returns the output together with the updated
branch; in the Python source the output variable `y` is unbound (a
`NameError`) when the input is inside the hysteresis band and the branch
state is neither `-1` nor `1`, modelled here by `none`. -/
noncomputable def relay_call (b c : ℝ) (branch : ℤ) (x : ℝ) : Option (ℝ × ℤ) :=
  if c < x then some (b, 1)
  else if x < -c then some (-b, -1)
  else if branch = -1 then some (-b, branch)
  else if branch = 1 then some (b, branch)
  else none

/-- A sequence of `relay_hysteresis_nonlinearity.__call__` invocations from a
given branch state, collecting each call's output and post-call branch. -/
noncomputable def relay_run (b c : ℝ) : ℤ → List ℝ → Option (List (ℝ × ℤ))
  | _, [] => some []
  | branch, x :: xs =>
    match relay_call b c branch x with
    | none => none
    | some (y, br) =>
      match relay_run b c br xs with
      | none => none
      | some rest => some ((y, br) :: rest)

/-- One relay call from a valid branch state succeeds, lands in a valid
branch state, and outputs `b` times the updated branch. -/
theorem relay_call_step (b c x : ℝ) (branch : ℤ)
    (hbr : branch = -1 ∨ branch = 1) :
    ∃ y br, relay_call b c branch x = some (y, br) ∧
      (br = -1 ∨ br = 1) ∧ y = b * (br : ℝ) := by
  unfold relay_call
  by_cases h1 : c < x
  · exact ⟨b, 1, by rw [if_pos h1], Or.inr rfl, by norm_num⟩
  · rw [if_neg h1]
    by_cases h2 : x < -c
    · exact ⟨-b, -1, by rw [if_pos h2], Or.inl rfl, by push_cast; ring⟩
    · rw [if_neg h2]
      rcases hbr with hbr | hbr

      · exact ⟨-b, branch, by rw [if_pos hbr], Or.inl hbr, by rw [hbr]; push_cast; ring⟩
      · have hne : ¬branch = -1 := by rw [hbr]; decide
        exact ⟨b, branch, by rw [if_neg hne, if_pos hbr], Or.inr hbr,
          by rw [hbr]; push_cast; ring⟩

/-- C9: starting from the constructor's initial state (lower branch, `-1`),
every sequence of relay evaluations succeeds, the branch state stays in
`{-1, +1}` after each call, and each call's output equals `b` times the
branch state as updated by that call. -/
theorem relay_call_invariant (b c : ℝ) (xs : List ℝ) :
    ∃ outs, relay_run b c (-1) xs = some outs ∧
      ∀ p ∈ outs, (p.2 = -1 ∨ p.2 = 1) ∧ p.1 = b * (p.2 : ℝ) := by
  suffices h : ∀ (branch : ℤ), branch = -1 ∨ branch = 1 → ∀ ys : List ℝ,
      ∃ outs, relay_run b c branch ys = some outs ∧
        ∀ p ∈ outs, (p.2 = -1 ∨ p.2 = 1) ∧ p.1 = b * (p.2 : ℝ) from
    h (-1) (Or.inl rfl) xs
  intro branch hbr ys
  induction ys generalizing branch with
  | nil => exact ⟨[], rfl, by simp⟩
  | cons x ys ih =>
    obtain ⟨y, br, hcall, hbr', hy⟩ := relay_call_step b c x branch hbr
    obtain ⟨rest, hrun, hrest⟩ := ih br hbr'
    refine ⟨(y, br) :: rest, ?_, ?_⟩
    · simp only [relay_run, hcall, hrun]
    · intro p hp
      rcases List.mem_cons.mp hp with hp | hp
      · rw [hp]
        exact ⟨hbr', hy⟩
      · exact hrest p hp

/-- Witness for `relay_call_invariant`: `b = 2`, `c = 1`, inputs
`[3, 0, -3]` (switch up, hold, switch down).  The run evaluates to
`[(2, 1), (2, 1), (-2, -1)]`. -/
theorem relay_call_invariant_witness :
    (∃ outs, relay_run 2 1 (-1) [3, 0, -3] = some outs ∧
      ∀ p ∈ outs, (p.2 = -1 ∨ p.2 = 1) ∧ p.1 = 2 * (p.2 : ℝ)) ∧
    relay_run 2 1 (-1) [3, 0, -3] = some [(2, 1), (2, 1), (-2, -1)] :=
  ⟨relay_call_invariant 2 1 [3, 0, -3], by norm_num [relay_run, relay_call]⟩

/-- Embedding of `backlash_nonlinearity.__call__` for one scalar sample: the updated
center position, which is also the sample's output. -/
noncomputable def backlash_call (b center x : ℝ) : ℝ :=
  if b / 2 < x - center then x - b / 2
  else if x - center < -(b / 2) then x + b / 2
  else center

/-- Embedding of `backlash_nonlinearity.__call__` on a sequence of scalar samples
(`np.atleast_1d` iteration order): the list of outputs, each being the center
after processing that sample. -/
noncomputable def backlash_run (b : ℝ) : ℝ → List ℝ → List ℝ
  | _, [] => []
  | center, x :: xs =>
    backlash_call b center x :: backlash_run b (backlash_call b center x) xs

/-- After one backlash call the input is within half the backlash distance of
the updated center. -/
theorem backlash_call_close (b center x : ℝ) (hb : 0 ≤ b) :
    |x - backlash_call b center x| ≤ b / 2 := by
  unfold backlash_call
  split_ifs with h1 h2
  · rw [show x - (x - b / 2) = b / 2 by ring, abs_of_nonneg (by linarith)]
  · rw [show x - (x + b / 2) = -(b / 2) by ring, abs_neg,
      abs_of_nonneg (by linarith)]
  · rw [abs_le]
    constructor <;> linarith

/-- C10: for `b ≥ 0`, a backlash evaluation run produces one output per input
sample, in order (the head output is the center updated by the head input,
and the tail is the run continued from that center); each output equals the
updated center by definition of `backlash_call`, and after each call the
input of that call is within `b/2` of the updated center. -/
theorem backlash_call_invariant (b center : ℝ) (hb : 0 ≤ b) (xs : List ℝ) :
    (backlash_run b center xs).length = xs.length ∧
    (∀ x ys, backlash_run b center (x :: ys) = backlash_call b center x ::
      backlash_run b (backlash_call b center x) ys) ∧
    ∀ i, i < xs.length →
      |xs.getD i 0 - (backlash_run b center xs).getD i 0| ≤ b / 2 := by
  refine ⟨?_, fun x ys => rfl, ?_⟩
  · induction xs generalizing center with
    | nil => rfl
    | cons x ys ih => simpa [backlash_run] using ih (backlash_call b center x)
  · induction xs generalizing center with
    | nil => exact fun i hi => absurd hi (by simp)
    | cons x ys ih =>
      intro i hi
      cases i with
      | zero =>
        simpa [backlash_run] using backlash_call_close b center x hb
      | succ n =>
        have hn : n < ys.length := by simpa using hi
        simpa [backlash_run] using ih (backlash_call b center x) n hn

/-- Witness for `backlash_call_invariant`: `b = 2`, initial center `0`,
inputs `[5, 0]`. -/
theorem backlash_call_invariant_witness :
    (backlash_run 2 0 [5, 0]).length = ([5, 0] : List ℝ).length ∧
    (∀ x ys, backlash_run 2 0 (x :: ys) = backlash_call 2 0 x ::
      backlash_run 2 (backlash_call 2 0 x) ys) ∧
    ∀ i, i < ([5, 0] : List ℝ).length →
      |([5, 0] : List ℝ).getD i 0 - (backlash_run 2 0 [5, 0]).getD i 0| ≤ 2 / 2 :=
  backlash_call_invariant 2 0 (by norm_num) [5, 0]

/-!
The describing-function estimator (`describing_function` in the source).  A
nonlinearity (`fcn` argument) is a stateful unary function together with an
optional analytic `describing_function` method (duck-typed attribute lookup in
the source).  The `amp` argument is modelled in its scalar form; a raised
`ValueError` is `Except.error ()`.
-/

/-- A nonlinearity as consumed by the estimator: state type, initial state,
`__call__` as an explicit state transition returning (new state, output), and
the optional analytic `describing_function` method. -/
structure NLFun where
  S : Type
  init : S
  step : S → ℝ → S × ℝ
  analytic : Option (ℝ → DF)

/-- Embedding of `np.linspace a b n` with the default inclusive endpoint:
`a + (b - a)·i/(n - 1)` for `i = 0, …, n-1`. -/
noncomputable def linspace (a b : ℝ) (n : ℕ) : List ℝ :=
  (List.range n).map fun i => a + (b - a) * i / ((n : ℝ) - 1)

/-- Evaluate a stateful nonlinearity over a list of inputs in order
(the list comprehension `[fcn(x) for x in …]`), threading the state. -/
def runList (f : NLFun) : f.S → List ℝ → f.S × List ℝ
  | s, [] => (s, [])
  | s, x :: xs =>
    let r := f.step s x
    let rest := runList f r.1 xs
    (rest.1, r.2 :: rest.2)

/-- Dot product of two sample lists (`fcn_eval @ sin_theta`). -/
def dot (xs ys : List ℝ) : ℝ := (List.zipWith (fun a b => a * b) xs ys).sum

/-- The numeric (Fourier-projection) branch of `describing_function` for a
scalar amplitude: sample `[0, 2π]` at `num_points` angles, run an initial
settling cycle at the amplitude (`np.atleast_1d(amp).min()` is `amp` for a
scalar), then validate the amplitude (`amp == 0` with the zero check,
`amp < 0` raises) and project the evaluated waveform onto sine and cosine. -/
noncomputable def describing_function_numeric (fcn : NLFun) (amp : ℝ)
    (num_points : ℕ) (zero_check : Bool) : Except Unit DF :=
  let theta := linspace 0 (2 * Real.pi) num_points
  let dtheta := theta.getD 1 0 - theta.getD 0 0
  let sin_theta := theta.map Real.sin
  let cos_theta := theta.map Real.cos
  let settled := (runList fcn fcn.init (sin_theta.map (fun t => amp * t))).1
  if amp = 0 then
    if zero_check = true ∧ (fcn.step settled 0).2 ≠ 0 then Except.error ()
    else Except.ok (DF.val 1 0)
  else if amp < 0 then Except.error ()
  else
    let fcn_eval := (runList fcn settled (sin_theta.map (fun t => amp * t))).2
    let scale := dtheta / Real.pi / amp
    Except.ok (DF.val (dot fcn_eval sin_theta * scale)
      (dot fcn_eval cos_theta * scale))

/-- Embedding of `describing_function(fcn, amp, num_points, zero_check, try_method)` for a
scalar amplitude: when `try_method` is set and the nonlinearity exposes an
analytic `describing_function` method, that method is called directly
(before any amplitude validation); otherwise the numeric projection runs. -/
noncomputable def describing_function (fcn : NLFun) (amp : ℝ)
    (num_points : ℕ) (zero_check try_method : Bool) : Except Unit DF :=
  if try_method then
    match fcn.analytic with
    | some g => Except.ok (g amp)
    | none => describing_function_numeric fcn amp num_points zero_check
  else describing_function_numeric fcn amp num_points zero_check

/-- Instance for `saturation_nonlinearity` with stored bounds `(lb, ub)`: stateless clamp
with the analytic closed form. -/
noncomputable def saturationNL (lb ub : ℝ) : NLFun :=
  NLFun.mk Unit () (fun _ x => ((), max lb (min x ub)))
    (some (saturation_df lb ub))

/-- Instance for `relay_hysteresis_nonlinearity(b, c)`: branch state (constrained to the
two values reachable from the constructor's `-1`, cf. `relay_call`) with the
analytic closed form. -/
noncomputable def relayNL (b c : ℝ) : NLFun :=
  NLFun.mk {n : ℤ // n = -1 ∨ n = 1} ⟨-1, Or.inl rfl⟩
    (fun br x =>
      if c < x then (⟨1, Or.inr rfl⟩, b)
      else if x < -c then (⟨-1, Or.inl rfl⟩, -b)
      else if br.1 = -1 then (br, -b) else (br, b))
    (some (relay_df b c))

/-- Instance for `backlash_nonlinearity(b)`: center state starting at `0`, output the
updated center, with the analytic closed form. -/
noncomputable def backlashNL (b : ℝ) : NLFun :=
  NLFun.mk ℝ 0 (fun center x =>
    (backlash_call b center x, backlash_call b center x))
    (some (backlash_df b))

/-- A generic user-supplied callable (no analytic method) with the constant
offset `fcn x = x + 1`, whose value at zero input is `1 ≠ 0`. -/
noncomputable def offsetNL : NLFun :=
  NLFun.mk Unit () (fun _ x => ((), x + 1)) none

/-- C1 counterexample: with default options (`try_method = True`), at
amplitude `-1` none of the three built-in nonlinearity types raises — the
analytic method is called before the negative-amplitude validation, so
saturation returns `1`, relay returns NaN, and backlash returns `0`. -/
theorem describing_function_neg_amp_counterexample :
    describing_function (saturationNL (-1) 1) (-1) 100 true true =
      Except.ok (DF.val 1 0) ∧
    describing_function (relayNL 1 (1 / 2)) (-1) 100 true true =
      Except.ok DF.nan ∧
    describing_function (backlashNL 2) (-1) 100 true true =
      Except.ok (DF.val 0 0) := by
  refine ⟨?_, ?_, ?_⟩
  · simp only [describing_function, saturationNL]
    norm_num [saturation_df]
  · simp only [describing_function, relayNL]
    norm_num [relay_df]
  · simp only [describing_function, backlashNL]
    norm_num [backlash_df]

/-- C1 (amended): the `amp < 0` validation error is raised exactly on the
numeric path — for a nonlinearity with no analytic `describing_function`
method, or when `try_method` is disabled; nonlinearities with an analytic
method are evaluated at negative amplitudes without validation. -/
theorem describing_function_neg_amp (fcn : NLFun) (amp : ℝ) (n : ℕ)
    (zc tm : Bool) (h : fcn.analytic = none ∨ tm = false) (ha : amp < 0) :
    describing_function fcn amp n zc tm = Except.error () := by
  have hnum : describing_function_numeric fcn amp n zc = Except.error () := by
    simp only [describing_function_numeric]
    rw [if_neg (ne_of_lt ha), if_pos ha]
  rcases h with h | h
  · simp only [describing_function, h]
    cases tm <;> simp [hnum]
  · simp only [describing_function, h]
    simpa using hnum

/-- Witness for `describing_function_neg_amp`: the generic offset callable at
amplitude `-1` with default options raises the validation error. -/
theorem describing_function_neg_amp_witness :
    describing_function offsetNL (-1) 100 true true = Except.error () :=
  describing_function_neg_amp offsetNL (-1) 100 true true (Or.inl rfl)
    (by norm_num)

/-- C2 counterexample: at amplitude `0` with `zero_check = True` and default
`try_method`, the backlash built-in (which is exactly zero at zero input)
returns `0` through its analytic method, not `1.0`. -/
theorem describing_function_zero_backlash_counterexample :
    describing_function (backlashNL 2) 0 100 true true =
      Except.ok (DF.val 0 0) ∧ DF.val 0 0 ≠ DF.val 1 0 := by
  constructor
  · simp only [describing_function, backlashNL]
    norm_num [backlash_df]
  · simp

/-- C2 (amended): at amplitude `0` with `zero_check = True`, a nonlinearity
on the numeric path (no analytic method) whose output at zero input is a
state-independent value `v` raises the validation error when `v ≠ 0` and
returns exactly `1` when `v = 0`; the built-ins instead dispatch to their
analytic methods at amplitude `0`: saturation returns `1`, backlash
returns `0`. -/
theorem describing_function_zero_check (fcn : NLFun) (n : ℕ) (tm : Bool)
    (v : ℝ) (hA : fcn.analytic = none) (h0 : ∀ s, (fcn.step s 0).2 = v) :
    (v ≠ 0 → describing_function fcn 0 n true tm = Except.error ()) ∧
    (v = 0 → describing_function fcn 0 n true tm = Except.ok (DF.val 1 0)) ∧
    describing_function (saturationNL (-1) 1) 0 n true true =
      Except.ok (DF.val 1 0) ∧
    describing_function (backlashNL 2) 0 n true true =
      Except.ok (DF.val 0 0) := by
  have hred : describing_function fcn 0 n true tm =
      describing_function_numeric fcn 0 n true := by
    simp only [describing_function, hA]
    cases tm <;> simp
  refine ⟨?_, ?_, ?_, ?_⟩
  · intro hv
    rw [hred]
    simp only [describing_function_numeric, h0]
    simp [hv]
  · intro hv
    rw [hred]
    simp only [describing_function_numeric, h0]
    simp [hv]
  · simp only [describing_function, saturationNL]
    norm_num [saturation_df]
  · simp only [describing_function, backlashNL]
    norm_num [backlash_df]

/-- Witness for `describing_function_zero_check`: the generic offset callable
(value `1` at zero input) at amplitude `0` raises the validation error. -/
theorem describing_function_zero_check_witness :
    describing_function offsetNL 0 100 true true = Except.error () :=
  (describing_function_zero_check offsetNL 100 true 1 rfl
    (fun s => by show (0 : ℝ) + 1 = 1; norm_num)).1 (by norm_num)
